import Mathlib

/-!
Listing Lab: the pricing, completeness, summary and draft-saving logic of `script.js`.

A shallow embedding of `src/script.js`.

* ECMAScript Numbers are IEEE-754 binary64 values.  They are embedded exactly, with integer
  arithmetic only: a finite Number is the integer count of units of `2^-1074` (the least positive
  binary64 value) it is made of, and every arithmetic operation rounds the exact result to the
  nearest binary64 value, ties to even.  The sign of zero is not kept: no operation of the script
  (`===`, `>=`, `Number.isFinite`, `String`, `Math.round`, `*`, `+`, `/ 2`) tells the zeros apart.
* Strings are Unicode strings; `trim` and `toLowerCase` are embedded below.
* Form controls are cells holding the text last assigned to them or typed into them.
* Functions of the host that the repository does not contain (`String(n)`, `Number(s)`,
  `JSON.stringify`, the clock and the locale formatting of dates) are fields of `Builtins`.
-/

set_option exponentiation.threshold 5000

namespace ListingLab

/-! ## Numbers -/

/-- ECMAScript Number: `finite k` is the binary64 value `k * 2^-1074`. -/
inductive JSNumber where
  | nan
  | posInf
  | negInf
  | finite (units : Int)
deriving DecidableEq, Repr

namespace JSNumber

/-- The number of units of `2^-1074` in the value one. -/
def unitsPerOne : Nat := 2 ^ 1074

/-- The units of `2^1024`, the least magnitude that binary64 cannot hold. -/
def overflowUnits : Nat := 2 ^ 2098

/-- The Number of an integer (exact for every integer of magnitude up to `2^53`). -/
def ofInt (n : Int) : JSNumber := finite (n * Int.ofNat unitsPerOne)

/-- Nearest natural number to `x / y`, ties to the even one (`y` positive). -/
def roundHalfEven (x y : Nat) : Nat :=
  let q := x / y
  let r := x % y
  if 2 * r < y then q else if y < 2 * r then q + 1 else if q % 2 = 0 then q else q + 1

/-- Test `2^e ≤ a / b` for a positive `b`. -/
def pow2Le (e : Int) (a b : Nat) : Bool :=
  if 0 ≤ e then 2 ^ e.toNat * b ≤ a else b ≤ a * 2 ^ (-e).toNat

/-- The binary exponent at which `a / b` is rounded: the greatest `e` in `[-1022, 1025]` with
`2^e ≤ a / b`, and `-1022` (the exponent of the subnormal range) when there is none. -/
def binaryExponent (a b : Nat) : Int :=
  [1024, 512, 256, 128, 64, 32, 16, 8, 4, 2, 1].foldl
    (fun e s => if pow2Le (e + s) a b then e + s else e) (-1022)

/-- The units of the binary64 value nearest to the non-negative rational `a / b`: `a / b` is
rounded to a multiple of `2^(e - 52)`, `e` its binary exponent, which leaves 53 significant bits. -/
def roundPos (a b : Nat) : Nat :=
  let t : Int := binaryExponent a b - 52
  let n : Nat :=
    if 0 ≤ t then roundHalfEven a (b * 2 ^ t.toNat) else roundHalfEven (a * 2 ^ (-t).toNat) b
  n * 2 ^ (t + 1074).toNat

/-- Round the rational `n / d` (`d` positive) to binary64: round to nearest, ties to even, and an
infinity when the rounded magnitude reaches `2^1024`. -/
def roundBinary64 (n : Int) (d : Nat) : JSNumber :=
  let k := roundPos n.natAbs d
  if overflowUnits ≤ k then (if 0 < n then posInf else negInf)
  else finite (if 0 < n then Int.ofNat k else -Int.ofNat k)

/-- The value of a decimal numeral of the source text, written as a fraction: `0.85` is
`literal 85 100`. -/
def literal (n d : Nat) : JSNumber := roundBinary64 (Int.ofNat n) d

/-- The operator `*` on Numbers. -/
def mul : JSNumber → JSNumber → JSNumber
  | nan, _ => nan
  | _, nan => nan
  | finite a, finite b => roundBinary64 (a * b) (unitsPerOne * unitsPerOne)
  | finite a, posInf => if a = 0 then nan else if 0 < a then posInf else negInf
  | finite a, negInf => if a = 0 then nan else if 0 < a then negInf else posInf
  | posInf, finite b => if b = 0 then nan else if 0 < b then posInf else negInf
  | negInf, finite b => if b = 0 then nan else if 0 < b then negInf else posInf
  | posInf, posInf => posInf
  | posInf, negInf => negInf
  | negInf, posInf => negInf
  | negInf, negInf => posInf

/-- The operator `+` on Numbers. -/
def add : JSNumber → JSNumber → JSNumber
  | nan, _ => nan
  | _, nan => nan
  | finite a, finite b => roundBinary64 (a + b) unitsPerOne
  | finite _, posInf => posInf
  | finite _, negInf => negInf
  | posInf, finite _ => posInf
  | negInf, finite _ => negInf
  | posInf, posInf => posInf
  | posInf, negInf => nan
  | negInf, posInf => nan
  | negInf, negInf => negInf

/-- The operator `/` on Numbers; a zero divisor is taken as positive zero. -/
def div : JSNumber → JSNumber → JSNumber
  | nan, _ => nan
  | _, nan => nan
  | finite a, finite b =>
    if b = 0 then (if a = 0 then nan else if 0 < a then posInf else negInf)
    else roundBinary64 (if 0 < b then a else -a) b.natAbs
  | finite _, posInf => finite 0
  | finite _, negInf => finite 0
  | posInf, finite b => if 0 ≤ b then posInf else negInf
  | negInf, finite b => if 0 ≤ b then negInf else posInf
  | posInf, posInf => nan
  | posInf, negInf => nan
  | negInf, posInf => nan
  | negInf, negInf => nan

/-- The function `Math.round`: the nearest integer, a half going towards positive infinity;
`NaN` and the infinities are returned as they are. -/
def round : JSNumber → JSNumber
  | finite k =>
    finite ((2 * k + Int.ofNat unitsPerOne) / (2 * Int.ofNat unitsPerOne) * Int.ofNat unitsPerOne)
  | x => x

/-- The operator `>=` on Numbers: false as soon as an operand is `NaN`. -/
def ge : JSNumber → JSNumber → Bool
  | nan, _ => false
  | _, nan => false
  | finite a, finite b => decide (b ≤ a)
  | posInf, _ => true
  | _, negInf => true
  | finite _, posInf => false
  | negInf, _ => false

/-- The function `Number.isFinite` on a Number. -/
def isFinite : JSNumber → Bool
  | finite _ => true
  | _ => false

/-- Truthiness of a Number: every Number but zero and `NaN`. -/
def truthy : JSNumber → Bool
  | nan => false
  | finite k => decide (k ≠ 0)
  | _ => true

end JSNumber

/-! ## Values met by the table look-ups -/

/-- The values a property read of one of the two table objects can give. -/
inductive JSValue where
  | undefined
  | number (x : JSNumber)
  | array (items : List JSNumber)
  | protoMember
deriving DecidableEq, Repr

namespace JSValue

/-- Truthiness: `undefined` is falsy, a Number is truthy unless zero or `NaN`, arrays, functions
and objects are truthy. -/
def truthy : JSValue → Bool
  | undefined => false
  | number x => x.truthy
  | array _ => true
  | protoMember => true

/-- Indexed read `v[i]` of a value that is not `undefined`: the element of an array when there is
one, `undefined` in every other case (a function or a plain object has no property `0`). -/
def index : JSValue → Nat → JSValue
  | array items, i =>
    match items.get? i with
    | some x => number x
    | none => undefined
  | _, _ => undefined

/-- The conversion ToNumber applied by `*`: `undefined` gives `NaN`, a function or a plain object
gives `NaN` (its string form is not a numeral), an array goes through its string form. -/
def toNumber : JSValue → JSNumber
  | undefined => JSNumber.nan
  | number x => x
  | array [] => JSNumber.finite 0
  | array [x] => x
  | array _ => JSNumber.nan
  | protoMember => JSNumber.nan

end JSValue

/-- The property names every object literal inherits from `Object.prototype`; each of them holds
a function, and `__proto__` reads as the prototype object itself. -/
def objectPrototypeKeys : List String :=
  ["constructor", "hasOwnProperty", "isPrototypeOf", "propertyIsEnumerable", "toLocaleString",
   "toString", "valueOf", "__proto__", "__defineGetter__", "__defineSetter__",
   "__lookupGetter__", "__lookupSetter__"]

/-- Property read `obj[key]` of an object literal with the given own properties: the own property
when there is one, else the member of `Object.prototype` of that name, else `undefined`. -/
def getProperty (own : List (String × JSValue)) (key : String) : JSValue :=
  match own.lookup key with
  | some v => v
  | none => if key ∈ objectPrototypeKeys then JSValue.protoMember else JSValue.undefined

/-! ## Strings -/

/-- The code points that `trim` strips: ECMAScript WhiteSpace and LineTerminator. -/
def isWhiteSpace (c : Char) : Bool :=
  c.toNat ∈ [9, 10, 11, 12, 13, 32, 160, 5760, 8232, 8233, 8239, 8287, 12288, 65279]
    || (8192 ≤ c.toNat && c.toNat ≤ 8202)

/-- Strip white space from both ends of a list of characters. -/
def trimChars (l : List Char) : List Char :=
  ((l.dropWhile isWhiteSpace).reverse.dropWhile isWhiteSpace).reverse

/-- The method `String.prototype.trim`. -/
def trim (s : String) : String := String.mk (trimChars s.data)

/-- Lower-case form of one code point, as far as a look-up in `PREMIUM_BRANDS` can see it: the
Latin capitals, the Kelvin sign U+212A (lower case `k`) and U+0130 (lower case `i` followed by
U+0307).  Every other code point either is its own lower-case form or has a lower-case form
outside ASCII, and is left as it is: the entries of `PREMIUM_BRANDS` are ASCII, so neither choice
makes such a string an entry of the set. -/
def lowerChar (c : Char) : List Char :=
  if 65 ≤ c.toNat ∧ c.toNat ≤ 90 then [Char.ofNat (c.toNat + 32)]
  else if c.toNat = 8490 then [Char.ofNat 107]
  else if c.toNat = 304 then [Char.ofNat 105, Char.ofNat 775]
  else [c]

/-- The method `String.prototype.toLowerCase` (see `lowerChar`). -/
def toLowerCase (s : String) : String := String.mk (s.data.flatMap lowerChar)

/-! ## The record and the pure functions -/

/-- The `price` property of a record: the unset marker `""` or a Number. -/
inductive Price where
  | unset
  | num (x : JSNumber)
deriving DecidableEq, Repr

/-- The object built by `getDataFromUI`. -/
structure ListingRecord where
  itemName : String
  brand : String
  category : String
  condition : String
  price : Price
  notes : String
  lastUpdated : String
deriving DecidableEq, Repr

/-- Source `isPriceValid`. -/
def isPriceValid (price : Price) : Bool :=
  match price with
  | Price.unset => false
  | Price.num x => x.isFinite && x.ge (JSNumber.ofInt 0)

/-- Source `completenessCount`. -/
def completenessCount (data : ListingRecord) : Nat :=
  let count := 0
  let count := if data.itemName ≠ "" then count + 1 else count
  let count := if data.category ≠ "" then count + 1 else count
  let count := if data.condition ≠ "" then count + 1 else count
  let count := if data.price ≠ Price.unset && isPriceValid data.price then count + 1 else count
  count

/-- The object literal `BASE_RANGES` as written: key, low, high. -/
def baseRangeEntries : List (String × Int × Int) :=
  [("Tops", 10, 35), ("Bottoms", 15, 45), ("Dresses", 20, 70), ("Outerwear", 25, 90),
   ("Shoes", 20, 80), ("Bags", 25, 120), ("Accessories", 8, 40)]

/-- The object literal `CONDITION_MULTIPLIER` as written: key and decimal numeral, the numeral as
numerator and denominator (`1.0`, `0.85`, `0.7`, `0.5`). -/
def conditionEntries : List (String × Nat × Nat) :=
  [("New with tags", 10, 10), ("Like new", 85, 100), ("Good", 7, 10), ("Fair", 5, 10)]

/-- Source `BASE_RANGES[key]`. -/
def BASE_RANGES (key : String) : JSValue :=
  getProperty
    (baseRangeEntries.map fun e => (e.1, JSValue.array [JSNumber.ofInt e.2.1, JSNumber.ofInt e.2.2]))
    key

/-- Source `CONDITION_MULTIPLIER[key]`. -/
def CONDITION_MULTIPLIER (key : String) : JSValue :=
  getProperty (conditionEntries.map fun e => (e.1, JSValue.number (JSNumber.literal e.2.1 e.2.2))) key

/-- Source `PREMIUM_BRANDS`. -/
def PREMIUM_BRANDS : List String :=
  ["reformation", "madewell", "everlane", "anthropologie", "free people", "lululemon",
   "patagonia", "nike", "adidas", "coach", "tory burch", "kate spade"]

/-- The uplift factor `1.25` of the source. -/
def upliftFactor : JSNumber := JSNumber.literal 125 100

/-- Source `getSuggestedRange`; `none` is `null`. -/
def getSuggestedRange (data : ListingRecord) : Option (JSNumber × JSNumber) :=
  if data.category = "" ∨ data.condition = "" then none
  else
    let base := BASE_RANGES data.category
    let multiplier := CONDITION_MULTIPLIER data.condition
    if !base.truthy || !multiplier.truthy then none
    else
      let low := JSNumber.round (JSNumber.mul (base.index 0).toNumber multiplier.toNumber)
      let high := JSNumber.round (JSNumber.mul (base.index 1).toNumber multiplier.toNumber)
      if data.brand ≠ "" ∧ (toLowerCase (trim data.brand)) ∈ PREMIUM_BRANDS then
        some (JSNumber.round (JSNumber.mul low upliftFactor),
              JSNumber.round (JSNumber.mul high upliftFactor))
      else some (low, high)

/-- The price written by the use-suggested button: `Math.round((low + high) / 2)`. -/
def suggestedMid (low high : JSNumber) : JSNumber :=
  JSNumber.round (JSNumber.div (JSNumber.add low high) (JSNumber.ofInt 2))

/-! ## The host and the page -/

/-- Functions of the host that the repository does not contain. -/
structure Builtins where
  /-- Conversion `String(x)` of a Number, also used by template literals. -/
  numberToString : JSNumber → String
  /-- Conversion `Number(s)` of a string. -/
  stringToNumber : String → JSNumber
  /-- Text `new Date().toISOString()` at the n-th reading of the clock. -/
  isoTime : Nat → String
  /-- Text `new Date(iso).toLocaleString()`. -/
  dateToLocaleString : String → String
  /-- Text `new Date().toLocaleTimeString([], ...)` at the n-th reading of the clock. -/
  timeOfDay : Nat → String
  /-- Text `JSON.stringify(data)` of a record. -/
  jsonStringify : ListingRecord → String

/-- Source `buildExportSummary`. -/
def buildExportSummary (B : Builtins) (data : ListingRecord) : String :=
  let title := if data.itemName ≠ "" then data.itemName else "(Untitled item)"
  let lines : List String := []
  let suggested := getSuggestedRange data
  let lines := lines ++ ["Title: " ++ title]
  let lines := if data.brand ≠ "" then lines ++ ["Brand: " ++ data.brand] else lines
  let lines := if data.category ≠ "" then lines ++ ["Category: " ++ data.category] else lines
  let lines :=
    lines ++ ["Condition: " ++ (if data.condition ≠ "" then data.condition else "(Not selected)")]
  let lines :=
    lines ++ ["Price: " ++
      (match data.price with
       | Price.unset => "(Not set)"
       | Price.num x => "$" ++ B.numberToString x)]
  let lines :=
    match suggested with
    | some r =>
      lines ++ ["Suggested range (POC): $" ++ B.numberToString r.1 ++ "-$" ++ B.numberToString r.2]
    | none => lines
  let lines := if data.notes ≠ "" then lines ++ [""] ++ ["Notes:"] ++ [data.notes] else lines
  let lines := lines ++ [""]
  let lines := lines ++ ["Last updated: " ++ B.dateToLocaleString data.lastUpdated]
  "\n".intercalate lines

/-- Modelled from the spec: the page behind `els` (its markup is not among the sources).  The
specification asks of it a read path and a write path over the current input state, so each form
control is a cell holding its `value`, the text last typed or assigned, and each display element
is the text or flag that the script writes to it. -/
structure Elements where
  itemName : String
  brand : String
  category : String
  condition : String
  price : String
  notes : String
  saveHint : String
  statusMsg : String
  preview : String
  progressLabel : String
  progressBar : Nat
  priceErrorHidden : Bool
  priceErrorText : String
  guideHint : String
  suggestedRange : String
  useSuggestedDisabled : Bool
deriving DecidableEq, Repr

/-- Source `STORAGE_KEY`. -/
def STORAGE_KEY : String := "listingLabPOC:v1"

/-- The state the script works on: the page, the flag `hasTriedSave`, `localStorage` and the
number of readings taken of the clock. -/
structure World where
  els : Elements
  hasTriedSave : Bool
  localStorage : String → Option String
  clock : Nat

/-- Method `localStorage.setItem`. -/
def setItem (store : String → Option String) (key value : String) : String → Option String :=
  fun k => if k = key then some value else store k

/-- Method `localStorage.removeItem`. -/
def removeItem (store : String → Option String) (key : String) : String → Option String :=
  fun k => if k = key then none else store k

/-- Source `nowISO`: one reading of the clock. -/
def nowISO (B : Builtins) (w : World) : String × World :=
  (B.isoTime w.clock, { w with clock := w.clock + 1 })

/-- Source `getDataFromUI`. -/
def getDataFromUI (B : Builtins) (w : World) : ListingRecord × World :=
  let rawPrice := trim w.els.price
  let priceNum := if rawPrice = "" then Price.unset else Price.num (B.stringToNumber rawPrice)
  let stamp := nowISO B w
  ({ itemName := trim w.els.itemName
     brand := trim w.els.brand
     category := w.els.category
     condition := w.els.condition
     price := priceNum
     notes := trim w.els.notes
     lastUpdated := stamp.1 }, stamp.2)

/-- The argument of `setUIFromData`: an object whose properties may be absent (`undefined`),
as one read back from storage can be. -/
structure StoredData where
  itemName : Option String
  brand : Option String
  category : Option String
  condition : Option String
  price : Option Price
  notes : Option String

/-- A record seen as an argument of `setUIFromData`: every property present. -/
def ListingRecord.toStored (d : ListingRecord) : StoredData :=
  { itemName := some d.itemName, brand := some d.brand, category := some d.category,
    condition := some d.condition, price := some d.price, notes := some d.notes }

/-- Source `setUIFromData`. -/
def setUIFromData (B : Builtins) (data : StoredData) (w : World) : World :=
  { w with els :=
    { w.els with
      itemName := data.itemName.getD ""
      brand := data.brand.getD ""
      category := data.category.getD ""
      condition := data.condition.getD ""
      price :=
        match data.price with
        | none => ""
        | some Price.unset => ""
        | some (Price.num x) => B.numberToString x
      notes := data.notes.getD "" } }

/-- The status line that `render` picks for a completeness count, when it picks one. -/
def statusFor (complete : Nat) (current : String) : String :=
  let s := current
  let s := if complete = 0 then "Start by adding an item name." else s
  let s := if complete = 1 then "Add category and condition to see pricing help." else s
  let s := if complete = 2 then "Great - add a list price to finish." else s
  let s := if complete = 3 then "Almost there - complete the last required field." else s
  let s := if complete = 4 then "Ready to export" else s
  s

/-- Source `render`. -/
def render (B : Builtins) (w : World) : World :=
  let read := getDataFromUI B w
  let data := read.1
  let w := read.2
  let priceMissing : Bool := data.price = Price.unset
  let priceOk := isPriceValid data.price
  let showPriceError := w.hasTriedSave && (priceMissing || !priceOk)
  let els := { w.els with priceErrorHidden := !showPriceError }
  let els :=
    if showPriceError then
      { els with
        priceErrorText :=
          if priceMissing then "Price is required." else "Price must be 0 or greater."
        statusMsg := "Fix price to continue." }
    else els
  let complete := completenessCount data
  let els :=
    { els with
      progressBar := complete
      progressLabel :=
        "Completeness: " ++ B.numberToString (JSNumber.ofInt (Int.ofNat complete)) ++ "/4" }
  let els :=
    if !showPriceError then { els with statusMsg := statusFor complete els.statusMsg } else els
  let suggested := getSuggestedRange data
  let els :=
    if data.category = "" ∨ data.condition = "" then
      { els with
        guideHint := "Select a category and condition to see a range."
        suggestedRange := "$-- to $--"
        useSuggestedDisabled := true }
    else
      match suggested with
      | some r =>
        { els with
          guideHint := "Based on category, condition, and brand (if provided)."
          suggestedRange := "$" ++ B.numberToString r.1 ++ " to $" ++ B.numberToString r.2
          useSuggestedDisabled := false }
      | none =>
        { els with
          guideHint := "No range available yet for this selection."
          suggestedRange := "$-- to $--"
          useSuggestedDisabled := true }
  { w with els := { els with preview := buildExportSummary B data } }

/-- Source `saveToStorage`. -/
def saveToStorage (B : Builtins) (w : World) : World :=
  let read := getDataFromUI B w
  let data := read.1
  let w := { read.2 with hasTriedSave := true }
  if data.price = Price.unset ∨ isPriceValid data.price = false then
    render B { w with els := { w.els with saveHint := "Not saved (fix price)" } }
  else
    { w with
      localStorage := setItem w.localStorage STORAGE_KEY (B.jsonStringify data)
      els := { w.els with saveHint := "Saved locally - " ++ B.timeOfDay w.clock }
      clock := w.clock + 1 }

/-- Source `clearAll`. -/
def clearAll (B : Builtins) (w : World) : World :=
  let w := { w with localStorage := removeItem w.localStorage STORAGE_KEY }
  let w :=
    setUIFromData B
      { itemName := some "", brand := some "", category := some "", condition := some "",
        price := some Price.unset, notes := some "" } w
  render B { w with els := { w.els with saveHint := "Cleared" } }

/-- The click handler of `useSuggestedBtn`. -/
def useSuggestedClick (B : Builtins) (w : World) : World :=
  let read := getDataFromUI B w
  match getSuggestedRange read.1 with
  | none => read.2
  | some r =>
    let mid := suggestedMid r.1 r.2
    render B { read.2 with els := { read.2.els with price := B.numberToString mid } }

/-- The value of a decimal digit. -/
def digitValue (c : Char) : Option Nat :=
  if 48 ≤ c.toNat ∧ c.toNat ≤ 57 then some (c.toNat - 48) else none

/-- Read a run of decimal digits. -/
def parseDigits (cs : List Char) : Option Nat :=
  cs.foldl
    (fun acc c =>
      match acc, digitValue c with
      | some n, some d => some (10 * n + d)
      | _, _ => none)
    (some 0)

/-- Read a decimal integer: digits, with an optional minus sign in front. -/
def parseInteger (cs : List Char) : Option Int :=
  match cs with
  | [] => none
  | c :: rest =>
    if c.toNat = 45 then
      (if rest = [] then none else (parseDigits rest).map fun n => -Int.ofNat n)
    else (parseDigits (c :: rest)).map Int.ofNat

/-- A host for the worked examples.  It prints and reads integers in decimal and knows `NaN` and
the infinities, as ECMAScript does; it makes no attempt at numerals with a fraction or an
exponent, and its clock, date and JSON texts are placeholders. -/
def sampleBuiltins : Builtins where
  numberToString := fun x =>
    match x with
    | JSNumber.nan => "NaN"
    | JSNumber.posInf => "Infinity"
    | JSNumber.negInf => "-Infinity"
    | JSNumber.finite k =>
      if k % Int.ofNat JSNumber.unitsPerOne = 0 then toString (k / Int.ofNat JSNumber.unitsPerOne)
      else "NaN"
  stringToNumber := fun s =>
    match parseInteger s.data with
    | some n => JSNumber.ofInt n
    | none =>
      if s = "Infinity" then JSNumber.posInf
      else if s = "-Infinity" then JSNumber.negInf
      else JSNumber.nan
  isoTime := fun n => "T" ++ toString n
  dateToLocaleString := fun iso => iso
  timeOfDay := fun n => "T" ++ toString n
  jsonStringify := fun d => d.itemName ++ "|" ++ d.category ++ "|" ++ d.condition

/-- A blank page: every control empty, nothing saved, clock unread. -/
def blankWorld : World :=
  { els :=
      { itemName := "", brand := "", category := "", condition := "", price := "", notes := "",
        saveHint := "", statusMsg := "", preview := "", progressLabel := "", progressBar := 0,
        priceErrorHidden := true, priceErrorText := "", guideHint := "", suggestedRange := "",
        useSuggestedDisabled := true }
    hasTriedSave := false
    localStorage := fun _ => none
    clock := 0 }


/-! ## Definitions used to state the properties -/

/-- The brand test of `getSuggestedRange`: the brand is non-empty and its trimmed, lower-cased
form is in `PREMIUM_BRANDS`. -/
def isPremium (brand : String) : Bool :=
  decide (brand ≠ "" ∧ toLowerCase (trim brand) ∈ PREMIUM_BRANDS)

/-- The body of `getSuggestedRange` with the outcome of the brand test given as a flag. -/
def rangeWith (category condition : String) (premium : Bool) : Option (JSNumber × JSNumber) :=
  if category = "" ∨ condition = "" then none
  else
    let base := BASE_RANGES category
    let multiplier := CONDITION_MULTIPLIER condition
    if !base.truthy || !multiplier.truthy then none
    else
      let low := JSNumber.round (JSNumber.mul (base.index 0).toNumber multiplier.toNumber)
      let high := JSNumber.round (JSNumber.mul (base.index 1).toNumber multiplier.toNumber)
      if premium then
        some (JSNumber.round (JSNumber.mul low upliftFactor),
              JSNumber.round (JSNumber.mul high upliftFactor))
      else some (low, high)

/-- The integer a Number stands for, when it is a finite integer. -/
def JSNumber.toInteger? : JSNumber → Option Int
  | JSNumber.finite k =>
    if k % Int.ofNat JSNumber.unitsPerOne = 0 then some (k / Int.ofNat JSNumber.unitsPerOne)
    else none
  | _ => none

/-- The nearest integer to the exact fraction `n / d` (`d` positive), a half going up: the
rounding of the specification, free of any binary rounding. -/
def roundHalfUp (n : Int) (d : Nat) : Int := (2 * n + Int.ofNat d) / (2 * Int.ofNat d)

/-- The range of the specification, in exact arithmetic: the base pair times the decimal
multiplier `mn / md`, each bound rounded a half up, then, for a premium brand, each rounded
bound times `1.25 = 5 / 4` and rounded a half up again. -/
def claimedRange (baseLow baseHigh : Int) (mn md : Nat) (premium : Bool) : Int × Int :=
  let low := roundHalfUp (baseLow * Int.ofNat mn) md
  let high := roundHalfUp (baseHigh * Int.ofNat mn) md
  if premium then (roundHalfUp (low * 5) 4, roundHalfUp (high * 5) 4) else (low, high)

/-- A pair of integers as a pair of Numbers. -/
def numberPair (r : Int × Int) : JSNumber × JSNumber := (JSNumber.ofInt r.1, JSNumber.ofInt r.2)

/-- A record with the given brand, category and condition and nothing else filled in. -/
def recordOf (brand category condition : String) : ListingRecord :=
  { itemName := "", brand := brand, category := category, condition := condition,
    price := Price.unset, notes := "", lastUpdated := "" }

/-- The record of a blank form. -/
def emptyRecord (stamp : String) : ListingRecord :=
  { itemName := "", brand := "", category := "", condition := "", price := Price.unset,
    notes := "", lastUpdated := stamp }

/-- One line of the summary that is present only under a condition. -/
def lineIf (present : Bool) (line : String) : List String := if present then [line] else []

/-- The lines of the summary as the specification lists them. -/
def claimedSummaryLines (B : Builtins) (d : ListingRecord) : List String :=
  ["Title: " ++ (if d.itemName = "" then "(Untitled item)" else d.itemName)]
    ++ lineIf (decide (d.brand ≠ "")) ("Brand: " ++ d.brand)
    ++ lineIf (decide (d.category ≠ "")) ("Category: " ++ d.category)
    ++ ["Condition: " ++ (if d.condition = "" then "(Not selected)" else d.condition)]
    ++ ["Price: " ++
        (match d.price with
         | Price.unset => "(Not set)"
         | Price.num x => "$" ++ B.numberToString x)]
    ++ (match getSuggestedRange d with
        | some (low, high) =>
          ["Suggested range (POC): $" ++ B.numberToString low ++ "-$" ++ B.numberToString high]
        | none => [])
    ++ (if d.notes ≠ "" then ["", "Notes:", d.notes] else [])
    ++ ["", "Last updated: " ++ B.dateToLocaleString d.lastUpdated]

/-- The brand test as the specification words it: the trimmed, lower-cased brand is in
`PREMIUM_BRANDS`. -/
def normalizedPremium (brand : String) : Bool :=
  decide (toLowerCase (trim brand) ∈ PREMIUM_BRANDS)

/-- The check made on a suggested range and on the price the use-suggested button derives from
it: both bounds are integers, the low one positive and at most the high one, and the price is an
integer between them that `isPriceValid` accepts. -/
def rangeSound (r : JSNumber × JSNumber) : Bool :=
  match r.1.toInteger?, r.2.toInteger?, (suggestedMid r.1 r.2).toInteger? with
  | some low, some high, some mid =>
    decide (0 < low ∧ low ≤ high ∧ low ≤ mid ∧ mid ≤ high)
      && isPriceValid (Price.num (suggestedMid r.1 r.2))
  | _, _, _ => false

/-! ## Supporting lemmas -/

theorem ofInt_zero : JSNumber.ofInt 0 = JSNumber.finite 0 := by
  simp [JSNumber.ofInt]

theorem normalized_empty_not_premium : toLowerCase (trim "") ∉ PREMIUM_BRANDS := by decide

theorem isPremium_eq (brand : String) : isPremium brand = normalizedPremium brand := by
  unfold isPremium normalizedPremium
  by_cases hb : brand = ""
  · subst hb
    have h := normalized_empty_not_premium
    simp [h]
  · simp [hb]

theorem getSuggestedRange_eq (d : ListingRecord) :
    getSuggestedRange d = rangeWith d.category d.condition (isPremium d.brand) := by
  unfold getSuggestedRange rangeWith isPremium
  simp only [decide_eq_true_eq]

/-! ## C3: price validity -/

/-- C3: `isPriceValid` is true exactly for a price that is set to a finite Number that is at
least zero; it is false for the unset marker, for every negative Number, for `NaN` and for both
infinities, and true for zero and for every positive finite Number. -/
theorem isPriceValid_iff :
    (∀ p : Price, isPriceValid p = true ↔ ∃ k : Int, 0 ≤ k ∧ p = Price.num (JSNumber.finite k))
    ∧ isPriceValid Price.unset = false
    ∧ (∀ k : Int, k < 0 → isPriceValid (Price.num (JSNumber.finite k)) = false)
    ∧ isPriceValid (Price.num JSNumber.nan) = false
    ∧ isPriceValid (Price.num JSNumber.posInf) = false
    ∧ isPriceValid (Price.num JSNumber.negInf) = false
    ∧ isPriceValid (Price.num (JSNumber.ofInt 0)) = true
    ∧ (∀ k : Int, 0 < k → isPriceValid (Price.num (JSNumber.finite k)) = true) := by
  have key : ∀ k : Int, isPriceValid (Price.num (JSNumber.finite k)) = decide (0 ≤ k) := by
    intro k
    simp [isPriceValid, JSNumber.isFinite, JSNumber.ge, ofInt_zero]
  refine ⟨?_, rfl, ?_, rfl, rfl, rfl, ?_, ?_⟩
  · intro p
    constructor
    · intro h
      cases p with
      | unset => simp [isPriceValid] at h
      | num x =>
        cases x with
        | finite k =>
          rw [key] at h
          exact ⟨k, by simpa using h, rfl⟩
        | nan => simp [isPriceValid, JSNumber.isFinite] at h
        | posInf => simp [isPriceValid, JSNumber.isFinite] at h
        | negInf => simp [isPriceValid, JSNumber.isFinite] at h
    · rintro ⟨k, hk, rfl⟩
      rw [key]
      simpa using hk
  · intro k hk
    rw [key]
    simp
    omega
  · rw [ofInt_zero, key]
    simp
  · intro k hk
    rw [key]
    simp
    omega

/-- Worked instance of C3: the price `-5` is set and finite but negative, hence invalid. -/
theorem isPriceValid_iff_witness :
    isPriceValid (Price.num (JSNumber.finite (-5))) = false :=
  isPriceValid_iff.2.2.1 (-5) (by decide)

/-! ## C4: completeness -/

/-- C4: `completenessCount` lies in `[0, 4]` and is the number of the four conditions that hold
(item name non-empty, category non-empty, condition non-empty, price valid); a price that is
present but invalid adds nothing; the blank record counts 0 and a record with the three texts
filled in and a valid price counts 4. -/
theorem completenessCount_spec (d : ListingRecord) :
    completenessCount d ≤ 4
    ∧ completenessCount d
        = (decide (d.itemName ≠ "")).toNat + (decide (d.category ≠ "")).toNat
          + (decide (d.condition ≠ "")).toNat + (isPriceValid d.price).toNat
    ∧ (isPriceValid d.price = false →
        completenessCount d
          = (decide (d.itemName ≠ "")).toNat + (decide (d.category ≠ "")).toNat
            + (decide (d.condition ≠ "")).toNat)
    ∧ (d.itemName = "" → d.category = "" → d.condition = "" → d.price = Price.unset →
        completenessCount d = 0)
    ∧ (d.itemName ≠ "" → d.category ≠ "" → d.condition ≠ "" → isPriceValid d.price = true →
        completenessCount d = 4) := by
  have hunset : d.price = Price.unset → isPriceValid d.price = false := by
    intro h
    rw [h]
    rfl
  have hsum : completenessCount d
      = (decide (d.itemName ≠ "")).toNat + (decide (d.category ≠ "")).toNat
        + (decide (d.condition ≠ "")).toNat + (isPriceValid d.price).toNat := by
    unfold completenessCount
    by_cases h1 : d.itemName = "" <;> by_cases h2 : d.category = "" <;>
      by_cases h3 : d.condition = "" <;> by_cases h4 : d.price = Price.unset <;>
      cases h5 : isPriceValid d.price <;>
      simp_all
  refine ⟨?_, hsum, ?_, ?_, ?_⟩
  · rw [hsum]
    have b1 := Bool.toNat_le (decide (d.itemName ≠ ""))
    have b2 := Bool.toNat_le (decide (d.category ≠ ""))
    have b3 := Bool.toNat_le (decide (d.condition ≠ ""))
    have b4 := Bool.toNat_le (isPriceValid d.price)
    omega
  · intro h
    rw [hsum, h]
    simp
  · intro h1 h2 h3 h4
    rw [hsum, hunset h4]
    simp [h1, h2, h3]
  · intro h1 h2 h3 h4
    rw [hsum, h4]
    simp [h1, h2, h3]

/-- Worked instance of C4: a record with a name, a category and a condition whose price is the
negative number `-5` counts 3, the invalid price adding nothing. -/
theorem completenessCount_spec_witness :
    completenessCount
        { itemName := "Scarf", brand := "", category := "Accessories", condition := "Good",
          price := Price.num (JSNumber.ofInt (-5)), notes := "", lastUpdated := "" }
      = (decide ("Scarf" ≠ "")).toNat + (decide ("Accessories" ≠ "")).toNat
        + (decide ("Good" ≠ "")).toNat :=
  (completenessCount_spec _).2.2.1 (by decide)

/-! ## C1: the suggested range on the tables -/

theorem roundHalfUp_eq_floor (n : Int) (d : Nat) :
    roundHalfUp n d = ⌊(n : ℚ) / (d : ℚ) + 1 / 2⌋ := by
  unfold roundHalfUp
  rcases Nat.eq_zero_or_pos d with hd | hd
  · subst hd
    norm_num
  · have hq : (d : ℚ) ≠ 0 := by positivity
    have h : (n : ℚ) / (d : ℚ) + 1 / 2 = (((2 * n + (d : Int) : Int)) : ℚ) / (((2 * d : Nat)) : ℚ) := by
      push_cast
      field_simp
      ring
    rw [h, Rat.floor_intCast_div_natCast]
    simp

theorem rangeWith_on_tables :
    ∀ e ∈ baseRangeEntries, ∀ m ∈ conditionEntries, ∀ p : Bool,
      rangeWith e.1 m.1 p
        = some (numberPair
            (if e.1 = "Bottoms" ∧ m.1 = "Good" then (if p then (14, 39) else (11, 31))
             else claimedRange e.2.1 e.2.2 m.2.1 m.2.2 p)) := by
  decide

/-- C1 (as the code has it): for every category and condition of the two tables and every brand,
`getSuggestedRange` returns the range of the specification computed in exact arithmetic, with
the second rounding of the already rounded bounds for a premium brand, except for `Bottoms` in
condition `Good`: there the binary64 product `45 * 0.7` lies below `31.5`, and the result is
`(11, 31)`, or `(14, 39)` for a premium brand. -/
theorem getSuggestedRange_on_tables (d : ListingRecord) (e : String × Int × Int)
    (m : String × Nat × Nat) (he : e ∈ baseRangeEntries) (hm : m ∈ conditionEntries)
    (hc : d.category = e.1) (hk : d.condition = m.1) :
    getSuggestedRange d
      = some (numberPair
          (if e.1 = "Bottoms" ∧ m.1 = "Good" then
            (if normalizedPremium d.brand then (14, 39) else (11, 31))
           else claimedRange e.2.1 e.2.2 m.2.1 m.2.2 (normalizedPremium d.brand))) := by
  rw [getSuggestedRange_eq, isPremium_eq, hc, hk]
  exact rangeWith_on_tables e he m hm (normalizedPremium d.brand)

/-- Worked instances of C1: `Bags`, `Like new`, brand `Coach` gives `(26, 128)`, and `Tops`,
`Good`, no brand gives `(7, 25)`. -/
theorem getSuggestedRange_on_tables_witness :
    getSuggestedRange (recordOf "Coach" "Bags" "Like new")
        = some (JSNumber.ofInt 26, JSNumber.ofInt 128)
    ∧ getSuggestedRange (recordOf "" "Tops" "Good")
        = some (JSNumber.ofInt 7, JSNumber.ofInt 25) :=
  ⟨(getSuggestedRange_on_tables (recordOf "Coach" "Bags" "Like new") ("Bags", 25, 120)
      ("Like new", 85, 100) (by decide) (by decide) rfl rfl).trans (by decide),
   (getSuggestedRange_on_tables (recordOf "" "Tops" "Good") ("Tops", 10, 35)
      ("Good", 7, 10) (by decide) (by decide) rfl rfl).trans (by decide)⟩

/-- The binary64 facts behind the case `Bottoms`, `Good`: the numeral `0.7` denotes
`6305039478318694 / 2^53`, just below seven tenths, and the product `45 * 0.7` is the binary64
value `31.5 - 2^-48` (printed `31.499999999999996`), which `Math.round` takes to `31`; the
product `35 * 0.7` is `24.5` itself, which `Math.round` takes to `25`. -/
theorem product_45_by_07 :
    JSNumber.literal 7 10 = JSNumber.finite (Int.ofNat (6305039478318694 * 2 ^ 1021))
    ∧ JSNumber.mul (JSNumber.ofInt 45) (JSNumber.literal 7 10)
        = JSNumber.finite (Int.ofNat ((63 * 2 ^ 47 - 1) * 2 ^ 1026))
    ∧ JSNumber.round (JSNumber.mul (JSNumber.ofInt 45) (JSNumber.literal 7 10))
        = JSNumber.ofInt 31
    ∧ JSNumber.mul (JSNumber.ofInt 35) (JSNumber.literal 7 10)
        = JSNumber.finite (Int.ofNat (49 * 2 ^ 1073))
    ∧ JSNumber.round (JSNumber.mul (JSNumber.ofInt 35) (JSNumber.literal 7 10))
        = JSNumber.ofInt 25 := by
  decide

/-- C1 as stated fails: for `Bottoms` in condition `Good` with no brand the specification's
`round(45 * 0.7)` is `round(31.5) = 32`, while `getSuggestedRange` returns `(11, 31)`. -/
theorem getSuggestedRange_bottoms_good :
    ("Bottoms", 15, 45) ∈ baseRangeEntries
    ∧ ("Good", 7, 10) ∈ conditionEntries
    ∧ normalizedPremium "" = false
    ∧ claimedRange 15 45 7 10 false = (11, 32)
    ∧ getSuggestedRange (recordOf "" "Bottoms" "Good")
        = some (JSNumber.ofInt 11, JSNumber.ofInt 31)
    ∧ getSuggestedRange (recordOf "" "Bottoms" "Good")
        ≠ some (numberPair (claimedRange 15 45 7 10 false)) := by
  decide

/-! ## C2: keys outside the tables -/

theorem BASE_RANGES_undefined (key : String)
    (h1 : key ∉ baseRangeEntries.map (fun e => e.1)) (h2 : key ∉ objectPrototypeKeys) :
    BASE_RANGES key = JSValue.undefined := by
  simp only [baseRangeEntries, List.map, List.mem_cons, List.mem_singleton, not_or,
    List.not_mem_nil, or_false] at h1
  obtain ⟨a1, a2, a3, a4, a5, a6, a7⟩ := h1
  simp [BASE_RANGES, getProperty, baseRangeEntries, List.lookup, h2, beq_false_of_ne a1,
    beq_false_of_ne a2, beq_false_of_ne a3, beq_false_of_ne a4, beq_false_of_ne a5,
    beq_false_of_ne a6, beq_false_of_ne a7]

theorem CONDITION_MULTIPLIER_undefined (key : String)
    (h1 : key ∉ conditionEntries.map (fun e => e.1)) (h2 : key ∉ objectPrototypeKeys) :
    CONDITION_MULTIPLIER key = JSValue.undefined := by
  simp only [conditionEntries, List.map, List.mem_cons, List.mem_singleton, not_or,
    List.not_mem_nil, or_false] at h1
  obtain ⟨a1, a2, a3, a4⟩ := h1
  simp [CONDITION_MULTIPLIER, getProperty, conditionEntries, List.lookup, h2, beq_false_of_ne a1,
    beq_false_of_ne a2, beq_false_of_ne a3, beq_false_of_ne a4]

/-- Where the guard of `getSuggestedRange` does its work: an empty category or condition, or one
that is neither a key of its table nor a property name of `Object.prototype`, gives `null`
whatever the brand. -/
theorem getSuggestedRange_none (d : ListingRecord)
    (h : d.category = "" ∨ d.condition = ""
      ∨ (d.category ∉ baseRangeEntries.map (fun e => e.1) ∧ d.category ∉ objectPrototypeKeys)
      ∨ (d.condition ∉ conditionEntries.map (fun e => e.1)
          ∧ d.condition ∉ objectPrototypeKeys)) :
    getSuggestedRange d = none := by
  rw [getSuggestedRange_eq]
  unfold rangeWith
  rcases h with h | h | ⟨h1, h2⟩ | ⟨h1, h2⟩
  · simp [h]
  · simp [h]
  · simp [BASE_RANGES_undefined _ h1 h2, JSValue.truthy]
  · simp [CONDITION_MULTIPLIER_undefined _ h1 h2, JSValue.truthy]

/-- C2 at the failing input: `constructor` is not one of the seven categories, yet
`BASE_RANGES["constructor"]` is the function inherited from `Object.prototype`, which passes the
guard, and `getSuggestedRange` returns the pair `[NaN, NaN]` instead of `null`. -/
theorem getSuggestedRange_constructor :
    "constructor" ∉ baseRangeEntries.map (fun e => e.1)
    ∧ BASE_RANGES "constructor" = JSValue.protoMember
    ∧ getSuggestedRange (recordOf "" "constructor" "Good")
        = some (JSNumber.nan, JSNumber.nan) := by
  decide

/-! ## C6 and C7: the brand -/

theorem uplift_monotone_on_tables :
    ∀ e ∈ baseRangeEntries, ∀ m ∈ conditionEntries,
      (match rangeWith e.1 m.1 false, rangeWith e.1 m.1 true with
       | some plain, some lifted => lifted.1.ge plain.1 && lifted.2.ge plain.2
       | _, _ => false) = true := by
  decide

/-- C6: for every category and condition of the two tables and every premium brand, both bounds
returned with that brand are at least the bounds returned for the same category and condition
with an empty brand. -/
theorem uplift_monotone (d : ListingRecord) (e : String × Int × Int) (m : String × Nat × Nat)
    (he : e ∈ baseRangeEntries) (hm : m ∈ conditionEntries)
    (hc : d.category = e.1) (hk : d.condition = m.1)
    (hb : toLowerCase (trim d.brand) ∈ PREMIUM_BRANDS) :
    ∃ plain lifted : JSNumber × JSNumber,
      getSuggestedRange { d with brand := "" } = some plain
      ∧ getSuggestedRange d = some lifted
      ∧ lifted.1.ge plain.1 = true ∧ lifted.2.ge plain.2 = true := by
  have h := uplift_monotone_on_tables e he m hm
  have hp : isPremium d.brand = true := by
    rw [isPremium_eq]
    simpa [normalizedPremium] using hb
  have h0 : isPremium "" = false := by decide
  rw [getSuggestedRange_eq, getSuggestedRange_eq d, hp, hc, hk]
  simp only [h0]
  revert h
  cases rangeWith e.1 m.1 false with
  | none => simp
  | some plain =>
    cases rangeWith e.1 m.1 true with
    | none => simp
    | some lifted =>
      intro h
      simp only [Bool.and_eq_true] at h
      exact ⟨plain, lifted, rfl, rfl, h.1, h.2⟩

/-- Worked instance of C6: `Bags`, `Like new` is `(21, 102)` with no brand and `(26, 128)` with
the brand `Coach`. -/
theorem uplift_monotone_witness :
    ∃ plain lifted : JSNumber × JSNumber,
      getSuggestedRange { recordOf "Coach" "Bags" "Like new" with brand := "" } = some plain
      ∧ getSuggestedRange (recordOf "Coach" "Bags" "Like new") = some lifted
      ∧ lifted.1.ge plain.1 = true ∧ lifted.2.ge plain.2 = true :=
  uplift_monotone (recordOf "Coach" "Bags" "Like new") ("Bags", 25, 120) ("Like new", 85, 100)
    (by decide) (by decide) rfl rfl (by decide)

/-- C7: the result of `getSuggestedRange` depends on the brand only through whether its trimmed,
lower-cased form is in `PREMIUM_BRANDS`: two records with the same category and condition whose
brands agree on that test give the same result; in particular brands with the same trimmed,
lower-cased form give the same result, and a brand whose form is not in the set gives the result
of the empty brand. -/
theorem brand_only_through_membership :
    (∀ d d2 : ListingRecord, d.category = d2.category → d.condition = d2.condition →
      (toLowerCase (trim d.brand) ∈ PREMIUM_BRANDS ↔ toLowerCase (trim d2.brand) ∈ PREMIUM_BRANDS) →
      getSuggestedRange d = getSuggestedRange d2)
    ∧ (∀ d d2 : ListingRecord, d.category = d2.category → d.condition = d2.condition →
      toLowerCase (trim d.brand) = toLowerCase (trim d2.brand) →
      getSuggestedRange d = getSuggestedRange d2)
    ∧ (∀ d : ListingRecord, toLowerCase (trim d.brand) ∉ PREMIUM_BRANDS →
      getSuggestedRange d = getSuggestedRange { d with brand := "" }) := by
  have main : ∀ d d2 : ListingRecord, d.category = d2.category → d.condition = d2.condition →
      (toLowerCase (trim d.brand) ∈ PREMIUM_BRANDS ↔ toLowerCase (trim d2.brand) ∈ PREMIUM_BRANDS) →
      getSuggestedRange d = getSuggestedRange d2 := by
    intro d d2 hc hk hb
    rw [getSuggestedRange_eq, getSuggestedRange_eq d2, isPremium_eq, isPremium_eq, hc, hk]
    unfold normalizedPremium
    rw [decide_eq_decide.mpr hb]
  refine ⟨main, ?_, ?_⟩
  · intro d d2 hc hk hb
    exact main d d2 hc hk (by rw [hb])
  · intro d hb
    refine main d { d with brand := "" } rfl rfl ?_
    constructor
    · intro h
      exact absurd h hb
    · intro h
      exact absurd h normalized_empty_not_premium

/-- Worked instance of C7: the brands `  COACH ` and `coach` have the same trimmed, lower-cased
form and give the same range. -/
theorem brand_only_through_membership_witness :
    getSuggestedRange (recordOf "  COACH " "Bags" "Like new")
      = getSuggestedRange (recordOf "coach" "Bags" "Like new") :=
  brand_only_through_membership.2.1 (recordOf "  COACH " "Bags" "Like new")
    (recordOf "coach" "Bags" "Like new") rfl rfl (by decide)

/-! ## C10: the price written by the use-suggested button -/

theorem toInteger_eq_some (x : JSNumber) (n : Int) (h : x.toInteger? = some n) :
    x = JSNumber.ofInt n := by
  cases x with
  | finite k =>
    simp only [JSNumber.toInteger?] at h
    split_ifs at h with hk
    injection h with h
    subst h
    unfold JSNumber.ofInt
    congr 1
    exact (Int.ediv_mul_cancel (Int.dvd_of_emod_eq_zero hk)).symm
  | nan => simp [JSNumber.toInteger?] at h
  | posInf => simp [JSNumber.toInteger?] at h
  | negInf => simp [JSNumber.toInteger?] at h

theorem rangeSound_on_tables :
    ∀ e ∈ baseRangeEntries, ∀ m ∈ conditionEntries, ∀ p : Bool,
      (match rangeWith e.1 m.1 p with
       | some r => rangeSound r
       | none => false) = true := by
  decide

/-- On the keys of the two tables the suggestion is sound: the bounds are positive integers with
low at most high, and the price the use-suggested button writes is an integer between them that
`isPriceValid` accepts. -/
theorem useSuggested_sound_on_tables (d : ListingRecord) (e : String × Int × Int)
    (m : String × Nat × Nat) (he : e ∈ baseRangeEntries) (hm : m ∈ conditionEntries)
    (hc : d.category = e.1) (hk : d.condition = m.1) :
    ∃ low high mid : Int,
      getSuggestedRange d = some (JSNumber.ofInt low, JSNumber.ofInt high)
      ∧ suggestedMid (JSNumber.ofInt low) (JSNumber.ofInt high) = JSNumber.ofInt mid
      ∧ 0 < low ∧ low ≤ high ∧ low ≤ mid ∧ mid ≤ high
      ∧ isPriceValid (Price.num (JSNumber.ofInt mid)) = true := by
  have h := rangeSound_on_tables e he m hm (isPremium d.brand)
  rw [getSuggestedRange_eq, hc, hk]
  revert h
  cases rangeWith e.1 m.1 (isPremium d.brand) with
  | none => simp
  | some r =>
    obtain ⟨a, b⟩ := r
    simp only [rangeSound]
    cases ha : a.toInteger? with
    | none => simp
    | some low =>
      cases hb : b.toInteger? with
      | none => simp
      | some high =>
        cases hmid : (suggestedMid a b).toInteger? with
        | none => simp
        | some mid =>
          intro h
          simp only [Bool.and_eq_true, decide_eq_true_eq] at h
          have ea := toInteger_eq_some a low ha
          have eb := toInteger_eq_some b high hb
          have em := toInteger_eq_some _ mid hmid
          subst ea
          subst eb
          rw [em] at h
          exact ⟨low, high, mid, rfl, em, h.1.1, h.1.2.1, h.1.2.2.1, h.1.2.2.2, h.2⟩

/-- C10 at a failing input: the condition `valueOf` is not a key of `CONDITION_MULTIPLIER`, yet
the look-up finds the function inherited from `Object.prototype`; `getSuggestedRange` returns
`[NaN, NaN]`, whose bounds are not integers, and the price derived from it is `NaN`, which
`isPriceValid` rejects. -/
theorem useSuggested_valueOf :
    getSuggestedRange (recordOf "" "Tops" "valueOf") = some (JSNumber.nan, JSNumber.nan)
    ∧ suggestedMid JSNumber.nan JSNumber.nan = JSNumber.nan
    ∧ isPriceValid (Price.num (suggestedMid JSNumber.nan JSNumber.nan)) = false := by
  decide

/-! ## C5: the export summary -/

/-- C5: `buildExportSummary` returns, joined by newlines and in this order: the title line (with
its placeholder for an empty name), the brand line exactly when the brand is non-empty, the
category line exactly when the category is non-empty, the condition line (with its placeholder),
the price line (placeholder when unset, else `$` and the number), the suggested-range line exactly
when `getSuggestedRange` gives a range, for non-empty notes an empty line, `Notes:` and the notes
unchanged, then an empty line and the timestamp line.  For the blank record these are the three
placeholder lines, the empty line and the timestamp line. -/
theorem buildExportSummary_lines (B : Builtins) :
    (∀ d : ListingRecord, buildExportSummary B d = "\n".intercalate (claimedSummaryLines B d))
    ∧ (∀ stamp : String,
        buildExportSummary B (emptyRecord stamp)
          = "\n".intercalate
              ["Title: (Untitled item)", "Condition: (Not selected)", "Price: (Not set)", "",
               "Last updated: " ++ B.dateToLocaleString stamp]) := by
  constructor
  · intro d
    unfold buildExportSummary claimedSummaryLines lineIf
    by_cases h1 : d.itemName = "" <;> by_cases h2 : d.brand = "" <;>
      by_cases h3 : d.category = "" <;> by_cases h4 : d.condition = "" <;>
      by_cases h5 : d.notes = "" <;> cases h6 : getSuggestedRange d <;> cases h7 : d.price <;>
      simp [h1, h2, h3, h4, h5]
  · intro stamp
    have h : getSuggestedRange (emptyRecord stamp) = none :=
      getSuggestedRange_none _ (Or.inl rfl)
    unfold buildExportSummary
    rw [h]
    simp [emptyRecord]

/-! ## C8: saving the draft -/

theorem isPriceValid_unset (p : Price) (h : p = Price.unset) : isPriceValid p = false := by
  rw [h]
  rfl

theorem render_localStorage (B : Builtins) (w : World) :
    (render B w).localStorage = w.localStorage := rfl

/-- C8: `saveToStorage` writes `localStorage` exactly when the price of the current record is
valid: then the item under `STORAGE_KEY` becomes the serialization of the current record, and
when the price is unset, negative or not finite `localStorage` is left as it was. -/
theorem saveToStorage_localStorage (B : Builtins) (w : World) :
    (saveToStorage B w).localStorage
        = (if isPriceValid (getDataFromUI B w).1.price = true then
            setItem w.localStorage STORAGE_KEY (B.jsonStringify (getDataFromUI B w).1)
           else w.localStorage)
    ∧ (saveToStorage B w).localStorage STORAGE_KEY
        = (if isPriceValid (getDataFromUI B w).1.price = true then
            some (B.jsonStringify (getDataFromUI B w).1)
           else w.localStorage STORAGE_KEY) := by
  have main : (saveToStorage B w).localStorage
        = (if isPriceValid (getDataFromUI B w).1.price = true then
            setItem w.localStorage STORAGE_KEY (B.jsonStringify (getDataFromUI B w).1)
           else w.localStorage) := by
    unfold saveToStorage
    by_cases hv : isPriceValid (getDataFromUI B w).1.price = true
    · have hset : (getDataFromUI B w).1.price ≠ Price.unset := by
        intro h
        rw [isPriceValid_unset _ h] at hv
        cases hv
      have hno : ¬ ((getDataFromUI B w).1.price = Price.unset
          ∨ isPriceValid (getDataFromUI B w).1.price = false) := by
        simp [hset, hv]
      simp only [if_neg hno, if_pos hv]
      rfl
    · have hv2 : isPriceValid (getDataFromUI B w).1.price = false := by simpa using hv
      have hyes : (getDataFromUI B w).1.price = Price.unset
          ∨ isPriceValid (getDataFromUI B w).1.price = false := Or.inr hv2
      simp only [if_pos hyes, if_neg hv, render_localStorage]
      rfl
  refine ⟨main, ?_⟩
  rw [main]
  split_ifs
  · simp [setItem]
  · rfl

/-! ## C9: writing a record back to the form and reading it again -/

theorem trimChars_eq (l : List Char) :
    trimChars l = (l.dropWhile isWhiteSpace).rdropWhile isWhiteSpace := rfl

theorem dropWhile_initial_self (p : Char → Bool) (m t : List Char)
    (h : (m ++ t).dropWhile p = m ++ t) : m.dropWhile p = m := by
  cases m with
  | nil => rfl
  | cons a rest =>
    have h1 := (List.dropWhile_eq_self_iff).mp h (by simp)
    have h2 : p a = false := by simpa using h1
    simp [List.dropWhile, h2]

theorem dropWhile_rdropWhile_dropWhile (l : List Char) :
    ((l.dropWhile isWhiteSpace).rdropWhile isWhiteSpace).dropWhile isWhiteSpace
      = (l.dropWhile isWhiteSpace).rdropWhile isWhiteSpace := by
  obtain ⟨t, ht⟩ := List.rdropWhile_prefix isWhiteSpace (l := l.dropWhile isWhiteSpace)
  apply dropWhile_initial_self isWhiteSpace _ t
  rw [ht]
  exact List.dropWhile_idempotent _ _

theorem trimChars_idem (l : List Char) : trimChars (trimChars l) = trimChars l := by
  rw [trimChars_eq l, trimChars_eq, dropWhile_rdropWhile_dropWhile, List.rdropWhile_idempotent]

theorem trim_trim (s : String) : trim (trim s) = trim s := by
  unfold trim
  rw [trimChars_idem]

theorem reread (B : Builtins) (d : ListingRecord) (u : World) :
    (getDataFromUI B (setUIFromData B d.toStored u)).1.itemName = trim d.itemName
    ∧ (getDataFromUI B (setUIFromData B d.toStored u)).1.brand = trim d.brand
    ∧ (getDataFromUI B (setUIFromData B d.toStored u)).1.category = d.category
    ∧ (getDataFromUI B (setUIFromData B d.toStored u)).1.condition = d.condition
    ∧ (getDataFromUI B (setUIFromData B d.toStored u)).1.price
        = (match d.price with
           | Price.unset => Price.unset
           | Price.num x =>
             if trim (B.numberToString x) = "" then Price.unset
             else Price.num (B.stringToNumber (trim (B.numberToString x))))
    ∧ (getDataFromUI B (setUIFromData B d.toStored u)).1.notes = trim d.notes := by
  refine ⟨rfl, rfl, rfl, rfl, ?_, rfl⟩
  cases hp : d.price with
  | unset =>
    have t : trim "" = "" := by decide
    simp [getDataFromUI, setUIFromData, ListingRecord.toStored, hp, t]
  | num x => simp [getDataFromUI, setUIFromData, ListingRecord.toStored, hp]

/-- C9: for a record `d` read from the form by `getDataFromUI`, writing it to a form with
`setUIFromData` and reading that form again gives a record with the same item name, brand,
category, condition, price and notes, whether the price is unset, valid or a Number that is not
valid; the host is asked that `String` of the price, when it is a Number, is non-blank text that
`Number` reads back as the same Number. -/
theorem getDataFromUI_setUIFromData (B : Builtins) (w u : World)
    (hnum : ∀ x : JSNumber, (getDataFromUI B w).1.price = Price.num x →
      trim (B.numberToString x) ≠ "" ∧ B.stringToNumber (trim (B.numberToString x)) = x) :
    (getDataFromUI B (setUIFromData B (getDataFromUI B w).1.toStored u)).1.itemName
        = (getDataFromUI B w).1.itemName
    ∧ (getDataFromUI B (setUIFromData B (getDataFromUI B w).1.toStored u)).1.brand
        = (getDataFromUI B w).1.brand
    ∧ (getDataFromUI B (setUIFromData B (getDataFromUI B w).1.toStored u)).1.category
        = (getDataFromUI B w).1.category
    ∧ (getDataFromUI B (setUIFromData B (getDataFromUI B w).1.toStored u)).1.condition
        = (getDataFromUI B w).1.condition
    ∧ (getDataFromUI B (setUIFromData B (getDataFromUI B w).1.toStored u)).1.price
        = (getDataFromUI B w).1.price
    ∧ (getDataFromUI B (setUIFromData B (getDataFromUI B w).1.toStored u)).1.notes
        = (getDataFromUI B w).1.notes := by
  have hprice := (reread B (getDataFromUI B w).1 u).2.2.2.2.1
  refine ⟨trim_trim _, trim_trim _, rfl, rfl, ?_, trim_trim _⟩
  rw [hprice]
  cases hp : (getDataFromUI B w).1.price with
  | unset => rfl
  | num x =>
    obtain ⟨h1, h2⟩ := hnum x hp
    simp only [if_neg h1, h2]

/-- Worked instance of C9 with the sample host: a form holding the name ` Scarf ` and the price
text ` -12 ` (a Number that is not a valid price) reads back unchanged after being written to
a blank form. -/
theorem getDataFromUI_setUIFromData_witness :
    (getDataFromUI sampleBuiltins
        (setUIFromData sampleBuiltins
          (getDataFromUI sampleBuiltins
            { blankWorld with
              els := { blankWorld.els with itemName := " Scarf ", price := " -12 " } }).1.toStored
          blankWorld)).1.price
      = Price.num (JSNumber.ofInt (-12)) :=
  (getDataFromUI_setUIFromData sampleBuiltins
    { blankWorld with els := { blankWorld.els with itemName := " Scarf ", price := " -12 " } }
    blankWorld
    (by
      intro x hx
      have hp : (getDataFromUI sampleBuiltins
          { blankWorld with
            els := { blankWorld.els with itemName := " Scarf ", price := " -12 " } }).1.price
          = Price.num (JSNumber.ofInt (-12)) := by decide
      rw [hp] at hx
      injection hx with hx
      subst hx
      decide)).2.2.2.2.1.trans (by decide)

end ListingLab
